import Mathlib

/-!
Shallow embedding of the flash-gateway core (capture middleware, guardrail
executor, response builder, proxy handler, moderation guardrail, storage
batch writer) together with theorems settling the specification claims.

Bodies and byte buffers are modelled as `List Char` (one `Char` per byte);
Go maps that only carry string data become association lists; impure inputs
(wall clock, UUIDs, the network, goroutine interleavings) become explicit
parameters of the embedded functions.
-/

namespace FlashGateway

/-- `strings.ToLower`, embedded as ASCII case folding per character (header
names and methods are ASCII). -/
def strToLower (s : String) : String := ⟨s.data.map Char.toLower⟩

/-- `strings.ToUpper`, embedded as ASCII case folding per character. -/
def strToUpper (s : String) : String := ⟨s.data.map Char.toUpper⟩

/-- Is `sub` a contiguous sublist of `s`? -/
def listHasInfix (sub : List Char) : List Char → Bool
  | [] => sub.isEmpty
  | c :: rest => sub.isPrefixOf (c :: rest) || listHasInfix sub rest

/-- `strings.Contains`. -/
def strContains (s sub : String) : Bool := listHasInfix sub.data s.data

/-! ## Capture middleware (internal/middleware/capture.go) -/

/-- The literal truncation marker appended by `captureBody` and the
response-capture writer. -/
def truncationMarker : List Char := "\n... [TRUNCATED]".toList

/-- Embedding of `CaptureMiddleware.captureBody`: read through
`io.LimitReader(body, maxSize)` (so at most `maxSize` bytes are captured),
then append the truncation marker when `buf.Len() >= maxSize`. -/
def captureBody (body : List Char) (maxSize : Nat) : List Char :=
  let captured := body.take maxSize
  if maxSize ≤ captured.length then captured ++ truncationMarker else captured

/-- Embedding of the request-body handling in `CaptureMiddleware.Capture`
(lines 94–105): for a body-bearing method the body is captured (truncated to
the cap) and `r.Body` is replaced with a reader over the *captured* string.
Returns `(logged copy, body seen by the downstream handler)`. -/
def captureRequestBody (method : String) (body : Option (List Char)) (maxSize : Nat) :
    Option (List Char) × Option (List Char) :=
  match body with
  | none => (none, none)
  | some b =>
    if method = "POST" ∨ method = "PUT" ∨ method = "PATCH" then
      let captured := captureBody b maxSize
      (some captured, some captured)
    else (none, some b)

/-- A captured header value: a single string or a list of values (Go stores
`values[0]` for a single value and the slice otherwise). -/
inductive HeaderVal
  | str (s : String)
  | list (vs : List String)
deriving DecidableEq

/-- The sensitive header names (lower-case) redacted by the capture layer
and by `SanitizeForLog`. -/
def sensitiveHeaders : List String :=
  ["authorization", "x-api-key", "cookie", "x-auth-token", "bearer"]

/-- Embedding of `CaptureMiddleware.captureHeaders`: lower-case the key, and
replace the value of a sensitive header by the sentinel. -/
def captureHeaders (headers : List (String × List String)) : List (String × HeaderVal) :=
  headers.map fun kv =>
    let lowerKey := strToLower kv.1
    if sensitiveHeaders.contains lowerKey then
      (kv.1, HeaderVal.str "[REDACTED]")
    else
      match kv.2 with
      | [v] => (kv.1, HeaderVal.str v)
      | vs => (kv.1, HeaderVal.list vs)

/-- Embedding of `storage.SanitizeForLog`.  Note the source sets
`lowerKey := key` (the key is *not* lower-cased) before the sensitive-name
lookup. -/
def sanitizeForLog (headers : List (String × HeaderVal)) : List (String × HeaderVal) :=
  headers.map fun kv =>
    let lowerKey := kv.1
    if sensitiveHeaders.contains lowerKey then
      (kv.1, HeaderVal.str "[REDACTED]")
    else (kv.1, kv.2)

/-! ## Guardrail execution engine (internal/guardrails) -/

/-- Embedding of `guardrails.Result` (a guardrail check result).  `float64`
scores are embedded as rationals; the metadata map is embedded as an
association list of its string-rendered entries. -/
structure GResult where
  passed : Bool
  score : Option Rat := none
  reason : String := ""
  metadata : List (String × String) := []
  modifiedContent : Option String := none
deriving DecidableEq

/-- Embedding of the `guardrails.Guardrail` interface: a name, a priority
and a `Check` operation.  `check` is the pure outcome of `Check(ctx,
content)` when the task is allowed to run it: `.error e` models a non-nil
returned error (including a context-cancellation error observed inside the
check), `.ok r` a returned result. -/
structure Guardrail where
  name : String
  priority : Int
  check : String → Except String GResult

/-- Embedding of `guardrails.Metric` (one row per guardrail invocation).
The `id`/`request_id`/wall-clock fields are omitted: they are opaque to
every claim. -/
structure Metric where
  guardrailName : String
  layer : String
  priority : Int
  passed : Bool := false
  score : Option Rat := none
  error : Option String := none
  metadata : List (String × String) := []
  originalResponse : Option String := none
  overrideResponse : Option String := none
  responseOverridden : Bool := false
deriving DecidableEq

/-- Embedding of `guardrails.GuardrailResult` (duration omitted). -/
structure GuardrailResult where
  name : String
  priority : Int
  result : GResult
deriving DecidableEq

/-- Embedding of `guardrails.GuardrailFailure`. -/
structure GuardrailFailure where
  name : String
  priority : Int
  reason : String
deriving DecidableEq

/-- Embedding of `guardrails.ExecutionResult`.  `results` keeps the `nil`
slots of the Go `[]*GuardrailResult` array (tasks that failed, errred or
were cancelled leave their slot `nil`). -/
structure ExecutionResult where
  passed : Bool
  failedGuardrail : String := ""
  failureReason : String := ""
  results : List (Option GuardrailResult) := []
deriving DecidableEq

/-- A record of one `Check` call actually performed: which guardrail, at
which priority, on which content. -/
structure Invocation where
  name : String
  priority : Int
  content : String
deriving DecidableEq

/-- What one spawned task contributes: the metric it submitted (if any),
the slot it stored in `results` (if any), the failure it recorded under the
mutex (if any), the error it returned to the errgroup (if any), and the
content it passed to `Check` (if the check was invoked at all). -/
structure TaskOutput where
  metric : Option Metric
  stored : Option GuardrailResult
  failure : Option GuardrailFailure
  err : Option String
  invoked : Option String

/-- Embedding of the goroutine body spawned by
`Executor.executeGroupParallel` for one guardrail.  `cancelledBefore = some
e` models the initial `select { case <-ctx.Done(): return ctx.Err() }`
firing with `ctx.Err()` rendered as `e`: the task returns at once, writing
no metric.  With `cancelledBefore = none` the task invokes `Check` and
follows the source's three outcomes (error / non-passing / passing). -/
def runTask (g : Guardrail) (content layer : String)
    (originalResponse overrideResponse : Option String)
    (cancelledBefore : Option String) : TaskOutput :=
  match cancelledBefore with
  | some e => ⟨none, none, none, some e, none⟩
  | none =>
    match g.check content with
    | .error e =>
      let metric : Metric :=
        { guardrailName := g.name, layer := layer, priority := g.priority,
          passed := false, error := some e }
      ⟨some metric, none, some ⟨g.name, g.priority, e⟩,
        some (g.name ++ " failed: " ++ e), some content⟩
    | .ok r =>
      let overridden := !r.passed && layer == "output"
        && originalResponse.isSome && overrideResponse.isSome
      let metric : Metric :=
        { guardrailName := g.name, layer := layer, priority := g.priority,
          passed := r.passed, score := r.score, metadata := r.metadata,
          originalResponse := if overridden then originalResponse else none,
          overrideResponse := if overridden then overrideResponse else none,
          responseOverridden := overridden }
      if r.passed then
        ⟨some metric, some ⟨g.name, g.priority, r⟩, none, none, some content⟩
      else
        ⟨some metric, none, some ⟨g.name, g.priority, r.reason⟩,
          some (g.name ++ " rejected: " ++ r.reason), some content⟩

/-- The output of `executeGroupParallel`: the execution result, the metrics
submitted to the sink, the checks invoked, and the returned Go `error`
value (which is `nil` at every return site of the source). -/
structure GroupOutput where
  result : ExecutionResult
  metrics : List Metric
  invocations : List Invocation
  err : Option String

/-- The spawned tasks of one group, in configuration order. -/
def groupTasks (gs : List Guardrail) (content layer : String)
    (originalResponse overrideResponse : Option String)
    (sched : Nat → Option String) : List TaskOutput :=
  gs.enum.map fun p =>
    runTask p.2 content layer originalResponse overrideResponse (sched p.1)

/-- One step of the failure-tracking mutex: keep the first recorded
failure, replacing it only by one of strictly lower priority value. -/
def failStep (acc : Option GuardrailFailure) (t : TaskOutput) :
    Option GuardrailFailure :=
  match t.failure with
  | none => acc
  | some f =>
    match acc with
    | none => some f
    | some f0 => if f.priority < f0.priority then some f else some f0

/-- The failure the group reports: the mutex fold over the tasks in
acquisition order. -/
def firstFailureOf (tasks : List TaskOutput) : Option GuardrailFailure :=
  tasks.foldl failStep none

/-- Embedding of `Executor.executeGroupParallel` under an explicit
interleaving: `sched i = some e` says task `i` observed cancellation at its
initial `select` (with `ctx.Err()` text `e`).  The failure mutex is
acquired and `errgroup.Wait`'s first error chosen in task-index order (one
of the schedules the source admits). -/
def executeGroupParallel (gs : List Guardrail) (content layer : String)
    (originalResponse overrideResponse : Option String)
    (sched : Nat → Option String) : GroupOutput :=
  if gs.isEmpty then ⟨⟨true, "", "", []⟩, [], [], none⟩
  else
    let tasks := groupTasks gs content layer originalResponse overrideResponse sched
    let metrics := tasks.filterMap (·.metric)
    let results := tasks.map (·.stored)
    let invocations := gs.enum.filterMap fun p =>
      if (sched p.1).isNone then some (Invocation.mk p.2.name p.2.priority content)
      else none
    match tasks.findSome? (·.err) with
    | some e =>
      match firstFailureOf tasks with
      | some f => ⟨⟨false, f.name, f.reason, results⟩, metrics, invocations, none⟩
      | none =>
        ⟨⟨false, "", "Guardrail execution failed: " ++ e, results⟩, metrics,
          invocations, none⟩
    | none => ⟨⟨true, "", "", results⟩, metrics, invocations, none⟩

/-- The scan in `executeParallel` that picks the first `ModifiedContent`
within a passed group's results (in slot order). -/
def firstModified (results : List (Option GuardrailResult)) : Option String :=
  results.findSome? fun o =>
    match o with
    | some r => r.result.modifiedContent
    | none => none

/-- The priority values present in `gs`, each once, sorted ascending —
`sort.Ints(priorities)` over the keys of `priorityGroups`. -/
def sortedPriorities (gs : List Guardrail) : List Int :=
  ((gs.map (·.priority)).dedup).insertionSort (· ≤ ·)

/-- The guardrails of priority `p`, in configuration order — the group
`priorityGroups[p]` built by `executeParallel`. -/
def priorityGroup (gs : List Guardrail) (p : Int) : List Guardrail :=
  gs.filter fun g => g.priority = p

/-- Embedding of the per-priority-group loop in `Executor.executeParallel`:
process the groups in the given priority order, threading the (possibly
modified) content, accumulating results, stopping at the first failing
group.  Metrics and invocations of all groups reached are collected. -/
def execGroups (gs : List Guardrail) (layer : String)
    (originalResponse overrideResponse : Option String)
    (sched : Int → Nat → Option String) :
    List Int → String → List (Option GuardrailResult) →
    ExecutionResult × List Metric × List Invocation
  | [], _content, acc => (⟨true, "", "", acc⟩, [], [])
  | p :: rest, content, acc =>
    let out := executeGroupParallel (priorityGroup gs p) content layer
      originalResponse overrideResponse (sched p)
    match out.err with
    | some e =>
      (⟨false, "", "Group execution failed: " ++ e, acc⟩, out.metrics,
        out.invocations)
    | none =>
      if out.result.passed then
        let content' := (firstModified out.result.results).getD content
        let next := execGroups gs layer originalResponse overrideResponse sched
          rest content' (acc ++ out.result.results)
        (next.1, out.metrics ++ next.2.1, out.invocations ++ next.2.2)
      else
        (⟨false, out.result.failedGuardrail, out.result.failureReason,
          acc ++ out.result.results⟩, out.metrics, out.invocations)

/-- The output of `executeParallel`: result, metrics, invocations, and the
returned Go `error` (again `nil` at every return site). -/
structure ExecOutput where
  result : ExecutionResult
  metrics : List Metric
  invocations : List Invocation
  err : Option String

/-- Embedding of `Executor.executeParallel`: empty list short-circuits to a
passing result; otherwise group by priority, enumerate groups in ascending
priority order, run each group, stop on the first failure. -/
def executeParallel (gs : List Guardrail) (content layer : String)
    (originalResponse overrideResponse : Option String)
    (sched : Int → Nat → Option String) : ExecOutput :=
  if gs.isEmpty then ⟨⟨true, "", "", []⟩, [], [], none⟩
  else
    let out := execGroups gs layer originalResponse overrideResponse sched
      (sortedPriorities gs) content []
    ⟨out.1, out.2.1, out.2.2, none⟩

/-- Embedding of `guardrails.Executor` (the metrics writer handle and the
timeout are left to the schedule parameter). -/
structure Executor where
  inputGuardrails : List Guardrail := []
  outputGuardrails : List Guardrail := []

/-- `Executor.ExecuteInput`. -/
def Executor.ExecuteInput (e : Executor) (content : String)
    (sched : Int → Nat → Option String) : ExecOutput :=
  executeParallel e.inputGuardrails content "input" none none sched

/-- `Executor.ExecuteOutput`. -/
def Executor.ExecuteOutput (e : Executor) (content : String)
    (sched : Int → Nat → Option String) : ExecOutput :=
  executeParallel e.outputGuardrails content "output" none none sched

/-- `Executor.ExecuteOutputWithResponses`. -/
def Executor.ExecuteOutputWithResponses (e : Executor) (content : String)
    (originalResponse overrideResponse : String)
    (sched : Int → Nat → Option String) : ExecOutput :=
  executeParallel e.outputGuardrails content "output"
    (some originalResponse) (some overrideResponse) sched

/-- The schedule on which no task observes cancellation at its initial
`select`: every spawned task gets to invoke its check. -/
def noCancel : Int → Nat → Option String := fun _ _ => none

/-- The check outcome the source counts as a task failure, with the reason
it records: a returned error (recorded with the error text) or a returned
non-passing result (recorded with its reason). -/
def checkFails (g : Guardrail) (c reason : String) : Prop :=
  match g.check c with
  | .error e => reason = e
  | .ok r => r.passed = false ∧ reason = r.reason

/-- The content each successive priority group receives, per the source's
scan: the first `modified_content` among a group's results, else the
group's own input content. -/
def contentTrace (gs : List Guardrail) (layer : String)
    (o1 o2 : Option String) (sched : Int → Nat → Option String) :
    List Int → String → List String
  | [], _ => []
  | p :: rest, c =>
    c :: contentTrace gs layer o1 o2 sched rest
      ((firstModified (executeGroupParallel (priorityGroup gs p) c layer o1 o2
        (sched p)).result.results).getD c)

/-! ## Response builder (handlers, GuardrailResponseBuilder) -/

/-- JSON documents, as produced by `json.Marshal` of the builder's maps. -/
inductive JsonVal
  | null
  | str (s : String)
  | num (n : Int)
  | arr (xs : List JsonVal)
  | obj (fields : List (String × JsonVal))

/-- Field lookup in a JSON object. -/
def JsonVal.getField : JsonVal → String → Option JsonVal
  | .obj fields, k => fields.lookup k
  | _, _ => none

/-- Element lookup in a JSON array. -/
def JsonVal.atIndex : JsonVal → Nat → Option JsonVal
  | .arr xs, i => xs.get? i
  | _, _ => none

/-- `GuardrailResponseBuilder.GetBlockedMessage`. -/
def blockedMessage : String := "I cannot service this request"

/-- Embedding of `buildChatCompletionResponse`; `uuid8` stands for the
first eight characters of the fresh UUID and `now` for the current Unix
time. -/
def buildChatCompletionResponse (uuid8 : String) (now : Int) : JsonVal :=
  .obj [
    ("id", .str ("chatcmpl-blocked-" ++ uuid8)),
    ("object", .str "chat.completion"),
    ("created", .num now),
    ("model", .str "gpt-3.5-turbo"),
    ("choices", .arr [.obj [
      ("index", .num 0),
      ("message", .obj [
        ("role", .str "assistant"),
        ("content", .str blockedMessage),
        ("refusal", .null)]),
      ("logprobs", .null),
      ("finish_reason", .str "stop")]]),
    ("usage", .obj [
      ("prompt_tokens", .num 0),
      ("completion_tokens", .num 6),
      ("total_tokens", .num 6)]),
    ("system_fingerprint", .str "fp_guardrail_blocked")]

/-- Embedding of `buildLegacyCompletionResponse`. -/
def buildLegacyCompletionResponse (uuid8 : String) (now : Int) : JsonVal :=
  .obj [
    ("id", .str ("cmpl-blocked-" ++ uuid8)),
    ("object", .str "text_completion"),
    ("created", .num now),
    ("model", .str "gpt-3.5-turbo"),
    ("choices", .arr [.obj [
      ("text", .str blockedMessage),
      ("index", .num 0),
      ("logprobs", .null),
      ("finish_reason", .str "stop")]]),
    ("usage", .obj [
      ("prompt_tokens", .num 0),
      ("completion_tokens", .num 6),
      ("total_tokens", .num 6)])]

/-- Embedding of `GuardrailResponseBuilder.BuildResponse`: switch on the
endpoint path. -/
def BuildResponse (endpoint uuid8 : String) (now : Int) : JsonVal :=
  if endpoint = "/v1/chat/completions" then buildChatCompletionResponse uuid8 now
  else if endpoint = "/v1/completions" then buildLegacyCompletionResponse uuid8 now
  else if endpoint = "/v1/responses" then buildChatCompletionResponse uuid8 now
  else buildChatCompletionResponse uuid8 now

/-! ## Proxy handler (internal/handlers/proxy.go) -/

/-- An endpoint entry of the provider's configuration: path plus the
advertised methods (`config.EndpointConfig`). -/
structure EndpointConf where
  path : String
  methods : List String
deriving DecidableEq

/-- A provider as the proxy sees it: a name and its configured endpoints. -/
structure ProviderM where
  name : String
  endpoints : List EndpointConf
deriving DecidableEq

/-- Embedding of `ProxyHandler.isMethodAllowed`: the source compares the
upper-cased method against the fixed list GET/POST/PUT/DELETE/PATCH; the
`endpoint` and `provider` arguments are accepted but not consulted. -/
def isMethodAllowed (endpoint method : String) (provider : ProviderM) : Bool :=
  let allowedMethods := ["GET", "POST", "PUT", "DELETE", "PATCH"]
  let _ := endpoint
  let _ := provider
  allowedMethods.contains (strToUpper method)

/-- An incoming request: path, method, and the body read outcome (`none`
when `r.Body == nil`, `.error` when `io.ReadAll` fails). -/
structure RequestM where
  path : String
  method : String
  body : Option (Except String String) := none

/-- An upstream response: status, `Content-Encoding`, the raw bytes, the
outcome of `decompressGzip` on those bytes (when attempted), and headers. -/
structure UpstreamResponse where
  status : Nat
  contentEncoding : String := ""
  body : String
  decompressed : Option String := none
  headers : List (String × List String) := []

/-- The client-visible body, tagged with its provenance. -/
inductive RespBody
  | errorText (msg : String)
  | refusal (j : JsonVal)
  | errorEnvelope (j : JsonVal)
  | upstreamBytes (bs : String)

/-- The client-visible outcome of one `ServeHTTP` call. -/
structure ProxyResult where
  status : Nat
  contentType : Option String := none
  body : RespBody
  contactedUpstream : Bool

/-- Embedding of `ProxyHandler.returnGuardrailError`'s response document. -/
def guardrailErrorEnvelope (errType message guardrailName : String) : JsonVal :=
  .obj ([("error", .str errType), ("message", .str message)] ++
    (if guardrailName = "" then [] else [("guardrail", .str guardrailName)]) ++
    [("status", .str "blocked"), ("timestamp", .str "2024-01-01T00:00:00Z")])

/-- The proxy handler's state: registered providers, the route table, and
the optional guardrail executor. -/
structure ProxyHandler where
  providers : List (String × ProviderM) := []
  routes : List (String × String) := []
  executor : Option Executor := none

/-- The body-extraction step of `ServeHTTP` (lines 77–89): only
body-bearing methods are read; a read failure surfaces as `.error`. -/
def readRequestBody (r : RequestM) : Except String String :=
  match r.body with
  | none => .ok ""
  | some rd =>
    if r.method = "POST" ∨ r.method = "PUT" ∨ r.method = "PATCH" then rd
    else .ok ""

/-- The pass-through response (lines 255–284): upstream status and original
bytes; the `Content-Type` the client sees is the upstream one. -/
def passThrough (resp : UpstreamResponse) : ProxyResult :=
  { status := resp.status,
    contentType := (resp.headers.lookup "Content-Type").bind List.head?,
    body := .upstreamBytes resp.body,
    contactedUpstream := true }

/-- The guardrail input for the output layer (lines 162–174): the
decompressed copy when the upstream response is gzip-encoded and
decompression succeeds, the original bytes otherwise. -/
def decompressForGuardrails (resp : UpstreamResponse) : String :=
  if strContains (strToLower resp.contentEncoding) "gzip" then
    match resp.decompressed with
    | some d => d
    | none => resp.body
  else resp.body

/-- The output-guardrail step of `ServeHTTP` (lines 176–253): run the
output guardrails on the (decompressed) body, substitute the refusal on
failure, pass through otherwise. -/
def outputGuardPhase (exq : Option Executor) (resp : UpstreamResponse)
    (responseBody path : String) (outSched : Int → Nat → Option String)
    (uuid8 : String) (now : Int) : ProxyResult :=
  match exq with
  | none => passThrough resp
  | some ex =>
    if responseBody.length > 0 then
      let out := ex.ExecuteOutput responseBody outSched
      match out.err with
      | some _ =>
        ⟨500, some "application/json",
          .errorEnvelope (guardrailErrorEnvelope "output_guardrails_error"
            "Failed to execute output guardrails" ""), true⟩
      | none =>
        if out.result.passed then passThrough resp
        else
          ⟨200, some "application/json", .refusal (BuildResponse path uuid8 now),
            true⟩
    else passThrough resp

/-- The forward/output half of `ServeHTTP` (lines 145–284): call the
provider, decompress for guardrails when gzip-encoded, run output
guardrails, substitute on failure. -/
def forwardPhase (h : ProxyHandler) (r : RequestM)
    (upstream : Option UpstreamResponse)
    (outSched : Int → Nat → Option String) (uuid8 : String) (now : Int) :
    ProxyResult :=
  match upstream with
  | none => ⟨502, none, .errorText "Proxy request failed", true⟩
  | some resp =>
    outputGuardPhase h.executor resp (decompressForGuardrails resp) r.path
      outSched uuid8 now

/-- The input-guardrail step of `ServeHTTP` (lines 91–143): run the input
guardrails on the buffered body, substitute the refusal on failure,
forward otherwise. -/
def inputGuardPhase (h : ProxyHandler) (r : RequestM)
    (upstream : Option UpstreamResponse) (requestBody : String)
    (inSched outSched : Int → Nat → Option String)
    (uuid8 : String) (now : Int) : ProxyResult :=
  match h.executor with
  | none => forwardPhase h r upstream outSched uuid8 now
  | some ex =>
    if requestBody.length > 0 then
      let out := ex.ExecuteInput requestBody inSched
      match out.err with
      | some _ =>
        ⟨500, some "application/json",
          .errorEnvelope (guardrailErrorEnvelope "input_guardrails_error"
            "Failed to execute input guardrails" ""), false⟩
      | none =>
        if out.result.passed then forwardPhase h r upstream outSched uuid8 now
        else
          ⟨200, some "application/json", .refusal (BuildResponse r.path uuid8 now),
            false⟩
    else forwardPhase h r upstream outSched uuid8 now

/-- Embedding of `ProxyHandler.ServeHTTP`: route lookup, provider lookup,
method validation, body read, input guardrails, forward, output
guardrails, respond.  `upstream` is the outcome of
`provider.ProxyRequest`; `inSched`/`outSched` fix the guardrail
interleavings; `uuid8`/`now` feed the response builder. -/
def serveHTTP (h : ProxyHandler) (r : RequestM)
    (upstream : Option UpstreamResponse)
    (inSched outSched : Int → Nat → Option String)
    (uuid8 : String) (now : Int) : ProxyResult :=
  match h.routes.lookup r.path with
  | none => ⟨404, none, .errorText ("Endpoint " ++ r.path ++ " not found"), false⟩
  | some providerName =>
    match h.providers.lookup providerName with
    | none =>
      ⟨500, none, .errorText ("Provider " ++ providerName ++ " not available"), false⟩
    | some provider =>
      if isMethodAllowed r.path r.method provider then
        match readRequestBody r with
        | .error _ => ⟨400, none, .errorText "Error reading request body", false⟩
        | .ok requestBody =>
          inputGuardPhase h r upstream requestBody inSched outSched uuid8 now
      else
        ⟨405, none,
          .errorText ("Method " ++ r.method ++ " not allowed for endpoint " ++ r.path),
          false⟩

/-! ## OpenAI moderation guardrail (internal/guardrails/openai/moderation.go) -/

/-- Embedding of the moderation API's per-input result
(`openai.ModerationResult`). -/
structure ModResult where
  flagged : Bool
  categories : List (String × Bool) := []
  categoryScores : List (String × Rat) := []
deriving DecidableEq

/-- The moderation guardrail's configuration-derived state. -/
structure ModerationGuardrail where
  name : String
  priority : Int
  blockOnFlag : Bool
  categories : List String
deriving DecidableEq

/-- `ModerationGuardrail.containsCategory`. -/
def containsCategory (m : ModerationGuardrail) (category : String) : Bool :=
  m.categories.contains category

/-- Category lookup in the API result's `categories` map (absent maps to
`false`, as in Go). -/
def lookupCat (cats : List (String × Bool)) (c : String) : Bool :=
  (cats.lookup c).getD false

/-- Embedding of `ModerationGuardrail.Check`.  The two impure helpers are
passed in as oracles: `extract` is the outcome of `extractUserMessage`
(pure JSON parsing) and `api` the outcome of `callModerationAPI` (network).
The second component is the returned Go `error`, `nil` at every return
site.  The metadata map is embedded by its string-valued entries (the
category maps echoed into metadata carry no claim-relevant information). -/
def moderationCheck (m : ModerationGuardrail)
    (extract : Except String String)
    (api : Except String ModResult) : GResult × Option String :=
  match extract with
  | .error e =>
    ({ passed := true,
       reason := "Failed to extract message: " ++ e,
       metadata := [("error", e), ("extraction", "failed")] }, none)
  | .ok userMessage =>
    if userMessage = "" then
      ({ passed := true, reason := "No user message found to moderate",
         metadata := [("extraction", "empty")] }, none)
    else
      match api with
      | .error e =>
        ({ passed := true, reason := "Moderation API error: " ++ e,
           metadata := [("error", e), ("api_call", "failed"),
             ("user_message", userMessage)] }, none)
      | .ok moderationResult =>
        let flagged :=
          if m.categories.length > 0 then
            m.categories.any fun c => lookupCat moderationResult.categories c
          else moderationResult.flagged
        let passed := !flagged || !m.blockOnFlag
        let violated := moderationResult.categories.filterMap fun cv =>
          if cv.2 && (decide (m.categories.length = 0) || containsCategory m cv.1)
          then some cv.1 else none
        let reason :=
          if flagged then "Content flagged for: " ++ String.intercalate ", " violated
          else "Content passed moderation"
        ({ passed := passed, reason := reason,
           metadata := [("user_message", userMessage),
             ("flagged", if moderationResult.flagged then "true" else "false"),
             ("api_call", "success")] }, none)

/-! ## Storage batch writer (internal/storage/writer.go) -/

/-- The fields of `storage.RequestLog` that the batch insert reads through
a pointer (`ResponseBody` is dereferenced by the batch loop's debug print;
the other nullable fields are passed to the driver as-is). -/
structure RequestLogM where
  endpoint : String := ""
  method : String := ""
  requestBody : Option String := none
  responseBody : Option String := none
  error : Option String := none
deriving DecidableEq

/-- The observable outcome of `SaveRequestLogsBatch`: normal return,
returned error, or a runtime panic. -/
inductive BatchOutcome
  | ok
  | dbError (msg : String)
  | panicked (msg : String)
deriving DecidableEq

/-- Embedding of `PostgreSQLStorage.SaveRequestLogsBatch`.  The database
interactions are oracles (`beginTx`, `execInsert`, `commitTx`).  The batch
loop executes `t("[LOG] Response body: %v", *log.ResponseBody)` for every
entry before the INSERT runs, so the first entry whose `ResponseBody` is
`nil` raises a nil-pointer dereference. -/
def saveRequestLogsBatch (logs : List RequestLogM)
    (beginTx execInsert commitTx : Except String Unit) : BatchOutcome :=
  if logs.length = 0 then .ok
  else
    match beginTx with
    | .error e => .dbError ("failed to begin transaction: " ++ e)
    | .ok _ =>
      match logs.find? (fun l => l.responseBody.isNone) with
      | some _ => .panicked "invalid memory address or nil pointer dereference"
      | none =>
        match execInsert with
        | .error e => .dbError ("failed to insert logs: " ++ e)
        | .ok _ =>
          match commitTx with
          | .error e => .dbError ("failed to commit transaction: " ++ e)
          | .ok _ => .ok

/-! ## Fixtures and helper lemmas -/

/-- Does a response body carry a structured error envelope? -/
def RespBody.isErrorEnvelope : RespBody → Bool
  | .errorEnvelope _ => true
  | _ => false

/-- Provider fixture: the chat endpoint advertises only POST. -/
def chatProvider : ProviderM :=
  ⟨"openai", [⟨"/v1/chat/completions", ["POST"]⟩]⟩

/-- Proxy-handler fixture over `chatProvider`. -/
def chatHandler (ex : Option Executor) : ProxyHandler :=
  { providers := [("openai", chatProvider)],
    routes := [("/v1/chat/completions", "openai")],
    executor := ex }

/-- A plain upstream 200 response. -/
def okUpstream : UpstreamResponse := { status := 200, body := "upstream-bytes" }

/-- A guardrail that always passes. -/
def passGuardrail (n : String) (p : Int) : Guardrail :=
  ⟨n, p, fun _ => .ok { passed := true }⟩

/-- A guardrail that always fails with the given reason. -/
def failGuardrail (n : String) (p : Int) (reason : String) : Guardrail :=
  ⟨n, p, fun _ => .ok { passed := false, reason := reason }⟩

/-- The schedule in which every task observes an already-expired deadline
at its initial `select`. -/
def deadlineSched : Int → Nat → Option String :=
  fun _ _ => some "context deadline exceeded"

/-- A spawned task submits a metric exactly when it was not cancelled
before invoking its check. -/
theorem runTask_metric_isSome (g : Guardrail) (content layer : String)
    (o1 o2 : Option String) (c : Option String) :
    (runTask g content layer o1 o2 c).metric.isSome = c.isNone := by
  cases c with
  | some e => rfl
  | none =>
    cases h : g.check content with
    | error e => simp [runTask, h]
    | ok r => by_cases hp : r.passed <;> simp [runTask, h, hp]

/-- Counting metrics over a list of spawned tasks. -/
theorem metric_count_aux (content layer : String) (o1 o2 : Option String)
    (sched : Nat → Option String) (l : List (Nat × Guardrail)) :
    ((l.map fun p => runTask p.2 content layer o1 o2 (sched p.1)).filterMap
      (·.metric)).length =
      (l.filter fun p => (sched p.1).isNone).length := by
  induction l with
  | nil => rfl
  | cons hd tl ih =>
    rw [List.map_cons, List.filterMap_cons, List.filter_cons]
    cases hc : sched hd.1 with
    | some e =>
      have hm : (runTask hd.2 content layer o1 o2 (some e)).metric = none := rfl
      rw [hm]
      simp only [hc, Option.isNone_some, Bool.false_eq_true, if_false]
      exact ih
    | none =>
      have hm : (runTask hd.2 content layer o1 o2 none).metric.isSome := by
        rw [runTask_metric_isSome]; rfl
      obtain ⟨m, hm'⟩ := Option.isSome_iff_exists.mp hm
      rw [hm']
      simp only [hc, Option.isNone_none, if_true, List.length_cons]
      rw [ih]

/-- The metrics a group submits are the per-task metrics, in task order. -/
theorem executeGroupParallel_metrics (gs : List Guardrail) (content layer : String)
    (o1 o2 : Option String) (sched : Nat → Option String) :
    (executeGroupParallel gs content layer o1 o2 sched).metrics =
      if gs.isEmpty then [] else
        (gs.enum.map fun p => runTask p.2 content layer o1 o2 (sched p.1)).filterMap
          (·.metric) := by
  unfold executeGroupParallel
  split
  · rfl
  · dsimp only
    split
    · split <;> rfl
    · rfl

/-- The checks a group invokes: one per task not cancelled before start,
each on the group's content. -/
theorem executeGroupParallel_invocations (gs : List Guardrail) (content layer : String)
    (o1 o2 : Option String) (sched : Nat → Option String) :
    (executeGroupParallel gs content layer o1 o2 sched).invocations =
      if gs.isEmpty then [] else
        gs.enum.filterMap fun p =>
          if (sched p.1).isNone then
            some (Invocation.mk p.2.name p.2.priority content)
          else none := by
  unfold executeGroupParallel
  split
  · rfl
  · dsimp only
    split
    · split <;> rfl
    · rfl

/-- `executeGroupParallel` returns a nil Go error on every path. -/
theorem executeGroupParallel_err_none (gs : List Guardrail) (content layer : String)
    (o1 o2 : Option String) (sched : Nat → Option String) :
    (executeGroupParallel gs content layer o1 o2 sched).err = none := by
  unfold executeGroupParallel
  split
  · rfl
  · dsimp only
    split
    · split <;> rfl
    · rfl

/-- `executeParallel` returns a nil Go error on every path. -/
theorem executeParallel_err_none (gs : List Guardrail) (content layer : String)
    (o1 o2 : Option String) (sched : Int → Nat → Option String) :
    (executeParallel gs content layer o1 o2 sched).err = none := by
  unfold executeParallel; split <;> rfl

/-- The output-guardrail step never answers with an error envelope. -/
theorem outputGuardPhase_no_envelope (exq : Option Executor)
    (resp : UpstreamResponse) (responseBody path : String)
    (outSched : Int → Nat → Option String) (uuid8 : String) (now : Int) :
    (outputGuardPhase exq resp responseBody path outSched uuid8
      now).body.isErrorEnvelope = false := by
  unfold outputGuardPhase
  rcases exq with _ | ex
  · rfl
  · dsimp only
    split
    · simp only [Executor.ExecuteOutput, executeParallel_err_none]
      split <;> rfl
    · rfl

/-- The forward/output phase never answers with an error envelope. -/
theorem forwardPhase_no_envelope (h : ProxyHandler) (r : RequestM)
    (upstream : Option UpstreamResponse) (outSched : Int → Nat → Option String)
    (uuid8 : String) (now : Int) :
    (forwardPhase h r upstream outSched uuid8 now).body.isErrorEnvelope = false := by
  unfold forwardPhase
  rcases upstream with _ | resp
  · rfl
  · exact outputGuardPhase_no_envelope h.executor resp
      (decompressForGuardrails resp) r.path outSched uuid8 now

/-- The input-guardrail step never answers with an error envelope. -/
theorem inputGuardPhase_no_envelope (h : ProxyHandler) (r : RequestM)
    (upstream : Option UpstreamResponse) (requestBody : String)
    (inSched outSched : Int → Nat → Option String) (uuid8 : String) (now : Int) :
    (inputGuardPhase h r upstream requestBody inSched outSched uuid8
      now).body.isErrorEnvelope = false := by
  unfold inputGuardPhase
  rcases h.executor with _ | ex
  · exact forwardPhase_no_envelope h r upstream outSched uuid8 now
  · dsimp only
    split
    · simp only [Executor.ExecuteInput, executeParallel_err_none]
      split
      · exact forwardPhase_no_envelope h r upstream outSched uuid8 now
      · rfl
    · exact forwardPhase_no_envelope h r upstream outSched uuid8 now

/-- The second component of an entry of `enum` is an element of the list. -/
theorem snd_mem_of_mem_enum {α : Type _} {l : List α} {q : ℕ × α}
    (h : q ∈ l.enum) : q.2 ∈ l := by
  rw [List.mem_enum_iff_getElem?] at h
  exact List.getElem?_mem h

/-- Characterization of an uncancelled task: its recorded failure carries
the guardrail's name, priority and the check's failure reason, and the
task returns an error to the errgroup exactly when it records a failure. -/
theorem runTask_noCancel_failure (g : Guardrail) (content layer : String)
    (o1 o2 : Option String) :
    ((runTask g content layer o1 o2 none).err.isSome =
      (runTask g content layer o1 o2 none).failure.isSome) ∧
    (∀ f, (runTask g content layer o1 o2 none).failure = some f →
      f.name = g.name ∧ f.priority = g.priority ∧
        checkFails g content f.reason) := by
  cases hchk : g.check content with
  | error e =>
    refine ⟨by simp [runTask, hchk], ?_⟩
    intro f hf
    simp only [runTask, hchk] at hf
    injection hf with hf
    subst hf
    exact ⟨rfl, rfl, by simp [checkFails, hchk]⟩
  | ok r =>
    by_cases hp : r.passed = true
    · refine ⟨by simp [runTask, hchk, hp], ?_⟩
      intro f hf
      simp [runTask, hchk, hp] at hf
    · refine ⟨by simp [runTask, hchk, hp], ?_⟩
      intro f hf
      simp only [runTask, hchk, if_neg hp] at hf
      injection hf with hf
      subst hf
      refine ⟨rfl, rfl, ?_⟩
      unfold checkFails
      rw [hchk]
      exact ⟨by simpa using hp, rfl⟩

/-- `failStep` keeps an already-recorded failure recorded. -/
theorem failStep_isSome_left (acc : Option GuardrailFailure) (t : TaskOutput)
    (h : acc.isSome) : (failStep acc t).isSome := by
  unfold failStep
  cases t.failure with
  | none => exact h
  | some f =>
    cases acc with
    | none => rfl
    | some f0 => dsimp only; split <;> rfl

/-- `failStep` records a failing task. -/
theorem failStep_isSome_right (acc : Option GuardrailFailure) (t : TaskOutput)
    (h : t.failure.isSome) : (failStep acc t).isSome := by
  unfold failStep
  cases hf : t.failure with
  | none => rw [hf] at h; cases h
  | some f =>
    cases acc with
    | none => rfl
    | some f0 => dsimp only; split <;> rfl

/-- Whatever the mutex fold reports came from the accumulator or from one
of the tasks. -/
theorem foldl_failStep_mem (l : List TaskOutput) :
    ∀ (acc : Option GuardrailFailure) (f : GuardrailFailure),
      l.foldl failStep acc = some f →
      acc = some f ∨ ∃ t ∈ l, t.failure = some f := by
  induction l with
  | nil => intro acc f h; exact Or.inl h
  | cons hd tl ih =>
    intro acc f h
    rw [List.foldl_cons] at h
    rcases ih (failStep acc hd) f h with h' | ⟨t, ht, hf⟩
    · unfold failStep at h'
      cases hfd : hd.failure with
      | none =>
        rw [hfd] at h'
        exact Or.inl h'
      | some f' =>
        rw [hfd] at h'
        cases acc with
        | none =>
          injection h' with h''
          exact Or.inr ⟨hd, List.mem_cons_self _ _, h'' ▸ hfd⟩
        | some f0 =>
          dsimp only at h'
          by_cases hlt : f'.priority < f0.priority
          · rw [if_pos hlt] at h'
            injection h' with h''
            exact Or.inr ⟨hd, List.mem_cons_self _ _, h'' ▸ hfd⟩
          · rw [if_neg hlt] at h'
            exact Or.inl h'
    · exact Or.inr ⟨t, List.mem_cons_of_mem _ ht, hf⟩

/-- The mutex fold reports a failure as soon as some task records one. -/
theorem foldl_failStep_isSome (l : List TaskOutput) :
    ∀ acc : Option GuardrailFailure,
      (acc.isSome ∨ ∃ t ∈ l, t.failure.isSome) →
      (l.foldl failStep acc).isSome := by
  induction l with
  | nil =>
    intro acc h
    rcases h with h | ⟨t, ht, _⟩
    · exact h
    · cases ht
  | cons hd tl ih =>
    intro acc h
    rw [List.foldl_cons]
    apply ih
    rcases h with h | ⟨t, ht, hf⟩
    · exact Or.inl (failStep_isSome_left acc hd h)
    · rcases List.mem_cons.mp ht with rfl | ht'
      · exact Or.inl (failStep_isSome_right acc t hf)
      · exact Or.inr ⟨t, ht', hf⟩

/-- Filtering with an everywhere-defined function is mapping. -/
theorem filterMap_some_comp {α β : Type _} (f : α → β) (l : List α) :
    l.filterMap (fun a => some (f a)) = l.map f := by
  induction l with
  | nil => rfl
  | cons hd tl ih => simp [List.filterMap_cons, ih]

/-- The group result, spelled out for a nonempty group. -/
theorem executeGroupParallel_result_eq (gs : List Guardrail)
    (content layer : String) (o1 o2 : Option String)
    (sched : Nat → Option String) (hne : gs.isEmpty = false) :
    (executeGroupParallel gs content layer o1 o2 sched).result =
      match (groupTasks gs content layer o1 o2 sched).findSome? (·.err) with
      | some e =>
        match firstFailureOf (groupTasks gs content layer o1 o2 sched) with
        | some f =>
          ⟨false, f.name, f.reason,
            (groupTasks gs content layer o1 o2 sched).map (·.stored)⟩
        | none =>
          ⟨false, "", "Guardrail execution failed: " ++ e,
            (groupTasks gs content layer o1 o2 sched).map (·.stored)⟩
      | none =>
        ⟨true, "", "",
          (groupTasks gs content layer o1 o2 sched).map (·.stored)⟩ := by
  unfold executeGroupParallel
  rw [if_neg (by simp [hne])]
  dsimp only
  cases (groupTasks gs content layer o1 o2 sched).findSome? (·.err) with
  | none => rfl
  | some e =>
    cases firstFailureOf (groupTasks gs content layer o1 o2 sched) with
    | none => rfl
    | some f => rfl

/-- Every task of a group comes from one of its guardrails. -/
theorem groupTasks_mem (gs : List Guardrail) (content layer : String)
    (o1 o2 : Option String) (sched : Nat → Option String) (t : TaskOutput)
    (ht : t ∈ groupTasks gs content layer o1 o2 sched) :
    ∃ q : ℕ × Guardrail, q ∈ gs.enum ∧
      t = runTask q.2 content layer o1 o2 (sched q.1) := by
  unfold groupTasks at ht
  obtain ⟨q, hq, hqe⟩ := List.mem_map.mp ht
  exact ⟨q, hq, hqe.symm⟩

/-- A failing group (when no task was cancelled before its check) names
one of its guardrails and records that guardrail's check failure as the
reason. -/
theorem executeGroupParallel_noCancel_failure (grp : List Guardrail)
    (c layer : String) (o1 o2 : Option String)
    (hfail : (executeGroupParallel grp c layer o1 o2
      (fun _ => none)).result.passed = false) :
    ∃ g ∈ grp,
      (executeGroupParallel grp c layer o1 o2
        (fun _ => none)).result.failedGuardrail = g.name ∧
      checkFails g c
        (executeGroupParallel grp c layer o1 o2
          (fun _ => none)).result.failureReason := by
  cases hE : grp.isEmpty with
  | true =>
    exfalso
    unfold executeGroupParallel at hfail
    rw [if_pos hE] at hfail
    simp at hfail
  | false =>
    have heq := executeGroupParallel_result_eq grp c layer o1 o2 (fun _ => none) hE
    rw [heq] at hfail ⊢
    revert hfail
    cases herr : (groupTasks grp c layer o1 o2 (fun _ => none)).findSome? (·.err) with
    | none => intro hfail; simp at hfail
    | some e =>
      cases hff : firstFailureOf (groupTasks grp c layer o1 o2 (fun _ => none)) with
      | none =>
        intro _
        exfalso
        have hsome : ((groupTasks grp c layer o1 o2
            (fun _ => none)).findSome? (·.err)).isSome := by
          rw [herr]; rfl
        obtain ⟨t, ht, hterr⟩ := List.findSome?_isSome_iff.mp hsome
        obtain ⟨q, hq, rfl⟩ := groupTasks_mem grp c layer o1 o2 (fun _ => none) t ht
        have hfs : (runTask q.2 c layer o1 o2 none).failure.isSome := by
          rw [← (runTask_noCancel_failure q.2 c layer o1 o2).1]
          exact hterr
        have hsome2 := foldl_failStep_isSome
          (groupTasks grp c layer o1 o2 (fun _ => none)) none
          (Or.inr ⟨_, ht, hfs⟩)
        rw [show (groupTasks grp c layer o1 o2 (fun _ => none)).foldl failStep none =
          firstFailureOf (groupTasks grp c layer o1 o2 (fun _ => none)) from rfl,
          hff] at hsome2
        simp at hsome2
      | some f =>
        intro _
        dsimp only
        rcases foldl_failStep_mem (groupTasks grp c layer o1 o2 (fun _ => none))
            none f hff with habs | ⟨t, ht, htf⟩
        · cases habs
        · obtain ⟨q, hq, rfl⟩ := groupTasks_mem grp c layer o1 o2 (fun _ => none) t ht
          have hchar := (runTask_noCancel_failure q.2 c layer o1 o2).2 f htf
          exact ⟨q.2, snd_mem_of_mem_enum hq, hchar.1, hchar.2.2⟩

/-- With no cancellations every guardrail of the group is invoked, in
configuration order, on the group's own content. -/
theorem executeGroupParallel_invocations_noCancel (grp : List Guardrail)
    (c layer : String) (o1 o2 : Option String) :
    (executeGroupParallel grp c layer o1 o2 (fun _ => none)).invocations =
      grp.map fun g => Invocation.mk g.name g.priority c := by
  rw [executeGroupParallel_invocations]
  cases hE : grp.isEmpty with
  | true => rw [List.isEmpty_iff.mp hE]; rfl
  | false =>
    rw [if_neg (by simp [hE])]
    have hfn : (fun (p : ℕ × Guardrail) =>
        if ((fun (_ : ℕ) => (none : Option String)) p.1).isNone = true then
          some (Invocation.mk p.2.name p.2.priority c)
        else none) =
        fun p : ℕ × Guardrail => some (Invocation.mk p.2.name p.2.priority c) := by
      funext p; simp
    rw [hfn, filterMap_some_comp]
    rw [show (fun p : ℕ × Guardrail => Invocation.mk p.2.name p.2.priority c) =
      ((fun g : Guardrail => Invocation.mk g.name g.priority c) ∘ Prod.snd) from rfl]
    rw [← List.map_map,
      show List.map Prod.snd grp.enum = grp from List.enumFrom_map_snd 0 grp]

/-- Every metric a group submits carries the name and priority of one of
the group's guardrails. -/
theorem executeGroupParallel_metrics_mem (gs : List Guardrail)
    (content layer : String) (o1 o2 : Option String)
    (sched : Nat → Option String) (m : Metric)
    (hm : m ∈ (executeGroupParallel gs content layer o1 o2 sched).metrics) :
    ∃ g ∈ gs, m.guardrailName = g.name ∧ m.priority = g.priority := by
  rw [executeGroupParallel_metrics] at hm
  rcases hE : gs.isEmpty with _ | _
  · rw [hE] at hm
    rw [if_neg (by simp)] at hm
    obtain ⟨t, ht, hmet⟩ := List.mem_filterMap.mp hm
    obtain ⟨q, hq, rfl⟩ := List.mem_map.mp ht
    refine ⟨q.2, snd_mem_of_mem_enum hq, ?_⟩
    revert hmet
    cases hc : sched q.1 with
    | some e => intro hmet; cases hmet
    | none =>
      cases hchk : q.2.check content with
      | error e =>
        intro hmet
        simp only [runTask, hchk] at hmet
        injection hmet with hmet
        subst hmet
        exact ⟨rfl, rfl⟩
      | ok r =>
        by_cases hp : r.passed = true
        · intro hmet
          simp only [runTask, hchk, if_pos hp] at hmet
          injection hmet with hmet
          subst hmet
          exact ⟨rfl, rfl⟩
        · intro hmet
          simp only [runTask, hchk, if_neg hp] at hmet
          injection hmet with hmet
          subst hmet
          exact ⟨rfl, rfl⟩
  · rw [hE] at hm
    rw [if_pos rfl] at hm
    cases hm

/-- The enumerated priority values are strictly ascending. -/
theorem sortedPriorities_sorted (gs : List Guardrail) :
    (sortedPriorities gs).Sorted (· < ·) := by
  have hs : (sortedPriorities gs).Sorted (· ≤ ·) :=
    List.sorted_insertionSort _ _
  have hn : (sortedPriorities gs).Nodup :=
    (List.perm_insertionSort _ _).nodup_iff.mpr ((gs.map (·.priority)).nodup_dedup)
  exact hs.lt_of_le hn

/-- A priority is enumerated exactly when some guardrail carries it. -/
theorem mem_sortedPriorities {gs : List Guardrail} {p : Int} :
    p ∈ sortedPriorities gs ↔ ∃ g ∈ gs, g.priority = p := by
  unfold sortedPriorities
  rw [(List.perm_insertionSort _ _).mem_iff, List.mem_dedup, List.mem_map]

/-- Membership in a priority group. -/
theorem mem_priorityGroup {gs : List Guardrail} {p : Int} {g : Guardrail} :
    g ∈ priorityGroup gs p ↔ g ∈ gs ∧ g.priority = p := by
  unfold priorityGroup
  rw [List.mem_filter]
  simp

/-- The stored-results slots of a group, spelled out. -/
theorem executeGroupParallel_results_eq (gs : List Guardrail)
    (content layer : String) (o1 o2 : Option String)
    (sched : Nat → Option String) :
    (executeGroupParallel gs content layer o1 o2 sched).result.results =
      if gs.isEmpty then [] else
        (groupTasks gs content layer o1 o2 sched).map (·.stored) := by
  unfold executeGroupParallel
  split
  · rfl
  · dsimp only
    split
    · split <;> rfl
    · rfl

/-- Every stored result of a group belongs to one of its guardrails. -/
theorem executeGroupParallel_results_mem (gs : List Guardrail)
    (content layer : String) (o1 o2 : Option String)
    (sched : Nat → Option String) (res : Option GuardrailResult)
    (hres : res ∈ (executeGroupParallel gs content layer o1 o2
      sched).result.results) (r : GuardrailResult) (hr : res = some r) :
    ∃ g ∈ gs, r.name = g.name ∧ r.priority = g.priority := by
  rw [executeGroupParallel_results_eq] at hres
  rcases hE : gs.isEmpty with _ | _
  · rw [hE, if_neg (by simp)] at hres
    obtain ⟨t, ht, hst⟩ := List.mem_map.mp hres
    obtain ⟨q, hq, rfl⟩ := groupTasks_mem gs content layer o1 o2 sched t ht
    refine ⟨q.2, snd_mem_of_mem_enum hq, ?_⟩
    subst hr
    revert hst
    cases hc : sched q.1 with
    | some e => intro hst; cases hst
    | none =>
      cases hchk : q.2.check content with
      | error e => intro hst; simp [runTask, hchk] at hst
      | ok rr =>
        by_cases hp : rr.passed = true
        · intro hst
          simp only [runTask, hchk, if_pos hp] at hst
          injection hst with hst
          rw [← hst]
          exact ⟨rfl, rfl⟩
        · intro hst
          simp [runTask, hchk, if_neg hp] at hst
  · rw [hE, if_pos rfl] at hres
    cases hres

/-- One step of the group loop when the head group passes. -/
theorem execGroups_cons_pass (gs : List Guardrail) (layer : String)
    (o1 o2 : Option String) (sched : Int → Nat → Option String) (p0 : Int)
    (rest : List Int) (c : String) (acc : List (Option GuardrailResult))
    (gout : GroupOutput)
    (hgout : executeGroupParallel (priorityGroup gs p0) c layer o1 o2
      (sched p0) = gout)
    (hpass : gout.result.passed = true) :
    execGroups gs layer o1 o2 sched (p0 :: rest) c acc =
      ((execGroups gs layer o1 o2 sched rest
          ((firstModified gout.result.results).getD c)
          (acc ++ gout.result.results)).1,
        gout.metrics ++ (execGroups gs layer o1 o2 sched rest
          ((firstModified gout.result.results).getD c)
          (acc ++ gout.result.results)).2.1,
        gout.invocations ++ (execGroups gs layer o1 o2 sched rest
          ((firstModified gout.result.results).getD c)
          (acc ++ gout.result.results)).2.2) := by
  subst hgout
  simp only [execGroups, executeGroupParallel_err_none]
  rw [if_pos hpass]

/-- One step of the group loop when the head group fails. -/
theorem execGroups_cons_fail (gs : List Guardrail) (layer : String)
    (o1 o2 : Option String) (sched : Int → Nat → Option String) (p0 : Int)
    (rest : List Int) (c : String) (acc : List (Option GuardrailResult))
    (gout : GroupOutput)
    (hgout : executeGroupParallel (priorityGroup gs p0) c layer o1 o2
      (sched p0) = gout)
    (hpass : gout.result.passed = false) :
    execGroups gs layer o1 o2 sched (p0 :: rest) c acc =
      (⟨false, gout.result.failedGuardrail, gout.result.failureReason,
          acc ++ gout.result.results⟩,
        gout.metrics, gout.invocations) := by
  subst hgout
  simp only [execGroups, executeGroupParallel_err_none]
  rw [if_neg (by rw [hpass]; exact Bool.false_ne_true)]

/-- Master induction over the priority groups under the no-cancellation
schedule: invocations follow the content trace, a failure stops the
iteration at the failing group and names one of its guardrails, and
invocations, metrics and stored results never come from a later group. -/
theorem execGroups_noCancel_spec (gs : List Guardrail) (layer : String)
    (o1 o2 : Option String) :
    ∀ (ps : List Int) (c : String) (acc : List (Option GuardrailResult)),
      ps.Sorted (· < ·) →
      (∀ res ∈ acc, ∀ r, res = some r →
        (∃ g ∈ gs, r.name = g.name ∧ r.priority = g.priority) ∧
        (∀ p' ∈ ps, r.priority < p')) →
      (∀ inv ∈ (execGroups gs layer o1 o2 noCancel ps c acc).2.2,
        ∃ pc ∈ ps.zip (contentTrace gs layer o1 o2 noCancel ps c),
          inv.priority = pc.1 ∧ inv.content = pc.2) ∧
      ((execGroups gs layer o1 o2 noCancel ps c acc).1.passed = false →
        ∃ p c',
          (p, c') ∈ ps.zip (contentTrace gs layer o1 o2 noCancel ps c) ∧
          (∃ g ∈ priorityGroup gs p,
            (execGroups gs layer o1 o2 noCancel ps c acc).1.failedGuardrail =
              g.name ∧
            checkFails g c'
              (execGroups gs layer o1 o2 noCancel ps c acc).1.failureReason) ∧
          (∀ inv ∈ (execGroups gs layer o1 o2 noCancel ps c acc).2.2,
            inv.priority ≤ p) ∧
          (∀ m ∈ (execGroups gs layer o1 o2 noCancel ps c acc).2.1,
            m.priority ≤ p) ∧
          (∀ res ∈ (execGroups gs layer o1 o2 noCancel ps c acc).1.results,
            ∀ r, res = some r →
              (∃ g ∈ gs, r.name = g.name ∧ r.priority = g.priority) ∧
              r.priority ≤ p)) := by
  intro ps
  induction ps with
  | nil =>
    intro c acc _hsort _hacc
    constructor
    · intro inv hinv
      simp only [execGroups] at hinv
      cases hinv
    · intro hfail
      simp only [execGroups] at hfail
      cases hfail
  | cons p0 rest ih =>
    intro c acc hsort hacc
    have hp0lt : ∀ p' ∈ rest, p0 < p' := (List.pairwise_cons.mp hsort).1
    have hsort' : rest.Sorted (· < ·) := (List.pairwise_cons.mp hsort).2
    have hinvs : (executeGroupParallel (priorityGroup gs p0) c layer o1 o2
        (noCancel p0)).invocations =
        (priorityGroup gs p0).map
          (fun g => Invocation.mk g.name g.priority c) :=
      executeGroupParallel_invocations_noCancel (priorityGroup gs p0) c layer o1 o2
    have hinvP : ∀ inv ∈ (executeGroupParallel (priorityGroup gs p0) c layer
        o1 o2 (noCancel p0)).invocations, inv.priority = p0 ∧ inv.content = c := by
      intro inv hinv
      rw [hinvs] at hinv
      obtain ⟨g, hg, rfl⟩ := List.mem_map.mp hinv
      exact ⟨(mem_priorityGroup.mp hg).2, rfl⟩
    have hmetP : ∀ m ∈ (executeGroupParallel (priorityGroup gs p0) c layer o1 o2
        (noCancel p0)).metrics, m.priority = p0 := by
      intro m hm
      obtain ⟨g, hg, _, hp⟩ :=
        executeGroupParallel_metrics_mem (priorityGroup gs p0) c layer o1 o2
          (noCancel p0) m hm
      rw [hp]
      exact (mem_priorityGroup.mp hg).2
    have hresP : ∀ res ∈ (executeGroupParallel (priorityGroup gs p0) c layer
        o1 o2 (noCancel p0)).result.results, ∀ r, res = some r →
        (∃ g ∈ gs, r.name = g.name ∧ r.priority = g.priority) ∧
        r.priority = p0 := by
      intro res hres r hr
      obtain ⟨g, hg, hn, hp⟩ :=
        executeGroupParallel_results_mem (priorityGroup gs p0) c layer o1 o2
          (noCancel p0) res hres r hr
      obtain ⟨hgs, hgp⟩ := mem_priorityGroup.mp hg
      exact ⟨⟨g, hgs, hn, hp⟩, by rw [hp, hgp]⟩
    have htr : contentTrace gs layer o1 o2 noCancel (p0 :: rest) c =
        c :: contentTrace gs layer o1 o2 noCancel rest
          ((firstModified (executeGroupParallel (priorityGroup gs p0) c layer
            o1 o2 (noCancel p0)).result.results).getD c) := rfl
    by_cases hpass : (executeGroupParallel (priorityGroup gs p0) c layer o1 o2
        (noCancel p0)).result.passed = true
    · have hstep := execGroups_cons_pass gs layer o1 o2 noCancel p0 rest c acc
        _ rfl hpass
      have hacc' : ∀ res ∈ acc ++ (executeGroupParallel (priorityGroup gs p0) c
          layer o1 o2 (noCancel p0)).result.results, ∀ r, res = some r →
          (∃ g ∈ gs, r.name = g.name ∧ r.priority = g.priority) ∧
          (∀ p' ∈ rest, r.priority < p') := by
        intro res hres r hr
        rcases List.mem_append.mp hres with h | h
        · obtain ⟨h1, h2⟩ := hacc res h r hr
          exact ⟨h1, fun p' hp' => h2 p' (List.mem_cons_of_mem _ hp')⟩
        · obtain ⟨h1, h2⟩ := hresP res h r hr
          exact ⟨h1, fun p' hp' => h2 ▸ hp0lt p' hp'⟩
      obtain ⟨ihA, ihB⟩ := ih
        ((firstModified (executeGroupParallel (priorityGroup gs p0) c layer o1
          o2 (noCancel p0)).result.results).getD c)
        (acc ++ (executeGroupParallel (priorityGroup gs p0) c layer o1 o2
          (noCancel p0)).result.results)
        hsort' hacc'
      constructor
      · intro inv hinv
        rw [hstep] at hinv
        dsimp only at hinv
        rcases List.mem_append.mp hinv with h | h
        · obtain ⟨hp, hc⟩ := hinvP inv h
          refine ⟨(p0, c), ?_, hp, hc⟩
          rw [htr]
          exact List.mem_cons_self _ _
        · obtain ⟨pc, hpc, hmatch⟩ := ihA inv h
          refine ⟨pc, ?_, hmatch⟩
          rw [htr]
          exact List.mem_cons_of_mem _ hpc
      · intro hfail
        rw [hstep] at hfail
        dsimp only at hfail
        obtain ⟨p, c', hpczip, hname, hinvB, hmetB, hresB⟩ := ihB hfail
        have hpmem : p ∈ rest := (List.of_mem_zip hpczip).1
        refine ⟨p, c', ?_, ?_, ?_, ?_, ?_⟩
        · rw [htr]
          exact List.mem_cons_of_mem _ hpczip
        · rw [hstep]
          exact hname
        · intro inv hinv
          rw [hstep] at hinv
          dsimp only at hinv
          rcases List.mem_append.mp hinv with h | h
          · exact le_of_lt ((hinvP inv h).1 ▸ hp0lt p hpmem)
          · exact hinvB inv h
        · intro m hm
          rw [hstep] at hm
          dsimp only at hm
          rcases List.mem_append.mp hm with h | h
          · exact le_of_lt ((hmetP m h) ▸ hp0lt p hpmem)
          · exact hmetB m h
        · intro res hres r hr
          rw [hstep] at hres
          exact hresB res hres r hr
    · have hpass' : (executeGroupParallel (priorityGroup gs p0) c layer o1 o2
          (noCancel p0)).result.passed = false :=
        Bool.eq_false_iff.mpr hpass
      have hstep := execGroups_cons_fail gs layer o1 o2 noCancel p0 rest c acc
        _ rfl hpass'
      have hfailN : ∃ g ∈ priorityGroup gs p0,
          (executeGroupParallel (priorityGroup gs p0) c layer o1 o2
            (noCancel p0)).result.failedGuardrail = g.name ∧
          checkFails g c
            (executeGroupParallel (priorityGroup gs p0) c layer o1 o2
              (noCancel p0)).result.failureReason :=
        executeGroupParallel_noCancel_failure (priorityGroup gs p0) c layer
          o1 o2 hpass'
      constructor
      · intro inv hinv
        rw [hstep] at hinv
        dsimp only at hinv
        obtain ⟨hp, hc⟩ := hinvP inv hinv
        refine ⟨(p0, c), ?_, hp, hc⟩
        rw [htr]
        exact List.mem_cons_self _ _
      · intro _hfail
        refine ⟨p0, c, ?_, ?_, ?_, ?_, ?_⟩
        · rw [htr]
          exact List.mem_cons_self _ _
        · rw [hstep]
          exact hfailN
        · intro inv hinv
          rw [hstep] at hinv
          dsimp only at hinv
          exact le_of_eq (hinvP inv hinv).1
        · intro m hm
          rw [hstep] at hm
          dsimp only at hm
          exact le_of_eq (hmetP m hm)
        · intro res hres r hr
          rw [hstep] at hres
          dsimp only at hres
          rcases List.mem_append.mp hres with h | h
          · obtain ⟨h1, h2⟩ := hacc res h r hr
            exact ⟨h1, le_of_lt (h2 p0 (List.mem_cons_self _ _))⟩
          · obtain ⟨h1, h2⟩ := hresP res h r hr
            exact ⟨h1, le_of_eq h2⟩

/-- If the output step answers with a refusal body, it is a 200
`application/json` response carrying the builder document for the path. -/
theorem outputGuardPhase_refusal_inv (exq : Option Executor)
    (resp : UpstreamResponse) (responseBody path : String)
    (outSched : Int → Nat → Option String) (uuid8 : String) (now : Int)
    (j : JsonVal)
    (hj : (outputGuardPhase exq resp responseBody path outSched uuid8 now).body =
      .refusal j) :
    (outputGuardPhase exq resp responseBody path outSched uuid8 now).status = 200 ∧
    (outputGuardPhase exq resp responseBody path outSched uuid8 now).contentType =
      some "application/json" ∧
    j = BuildResponse path uuid8 now := by
  unfold outputGuardPhase at hj ⊢
  rcases exq with _ | ex
  · simp [passThrough] at hj
  · dsimp only at hj ⊢
    by_cases hlen : responseBody.length > 0
    · rw [if_pos hlen] at hj ⊢
      simp only [Executor.ExecuteOutput, executeParallel_err_none] at hj ⊢
      by_cases hp : (executeParallel ex.outputGuardrails responseBody "output"
          none none outSched).result.passed = true
      · rw [if_pos hp] at hj
        simp [passThrough] at hj
      · rw [if_neg hp] at hj ⊢
        dsimp only at hj ⊢
        injection hj with hjj
        exact ⟨rfl, rfl, hjj.symm⟩
    · rw [if_neg hlen] at hj
      simp [passThrough] at hj

/-- If the forward phase answers with a refusal body, it is a 200
`application/json` response carrying the builder document for the path. -/
theorem forwardPhase_refusal_inv (h : ProxyHandler) (r : RequestM)
    (upstream : Option UpstreamResponse) (outSched : Int → Nat → Option String)
    (uuid8 : String) (now : Int) (j : JsonVal)
    (hj : (forwardPhase h r upstream outSched uuid8 now).body = .refusal j) :
    (forwardPhase h r upstream outSched uuid8 now).status = 200 ∧
    (forwardPhase h r upstream outSched uuid8 now).contentType =
      some "application/json" ∧
    j = BuildResponse r.path uuid8 now := by
  unfold forwardPhase at hj ⊢
  rcases upstream with _ | resp
  · simp at hj
  · exact outputGuardPhase_refusal_inv h.executor resp
      (decompressForGuardrails resp) r.path outSched uuid8 now j hj

/-- If the input step answers with a refusal body, it is a 200
`application/json` response carrying the builder document for the path. -/
theorem inputGuardPhase_refusal_inv (h : ProxyHandler) (r : RequestM)
    (upstream : Option UpstreamResponse) (requestBody : String)
    (inSched outSched : Int → Nat → Option String) (uuid8 : String) (now : Int)
    (j : JsonVal)
    (hj : (inputGuardPhase h r upstream requestBody inSched outSched uuid8
      now).body = .refusal j) :
    (inputGuardPhase h r upstream requestBody inSched outSched uuid8 now).status =
      200 ∧
    (inputGuardPhase h r upstream requestBody inSched outSched uuid8
      now).contentType = some "application/json" ∧
    j = BuildResponse r.path uuid8 now := by
  revert hj
  unfold inputGuardPhase
  rcases h.executor with _ | ex
  · exact forwardPhase_refusal_inv h r upstream outSched uuid8 now j
  · dsimp only
    by_cases hlen : requestBody.length > 0
    · rw [if_pos hlen]
      simp only [Executor.ExecuteInput, executeParallel_err_none]
      by_cases hp : (executeParallel ex.inputGuardrails requestBody "input"
          none none inSched).result.passed = true
      · rw [if_pos hp]
        exact forwardPhase_refusal_inv h r upstream outSched uuid8 now j
      · rw [if_neg hp]
        intro hj
        injection hj with hjj
        exact ⟨rfl, rfl, hjj.symm⟩
    · rw [if_neg hlen]
      exact forwardPhase_refusal_inv h r upstream outSched uuid8 now j

/-- If `serveHTTP` answers with a refusal body, it is a 200
`application/json` response carrying the builder document for the
request's path. -/
theorem serveHTTP_refusal_inv (h : ProxyHandler) (r : RequestM)
    (upstream : Option UpstreamResponse)
    (inSched outSched : Int → Nat → Option String) (uuid8 : String) (now : Int)
    (j : JsonVal)
    (hj : (serveHTTP h r upstream inSched outSched uuid8 now).body = .refusal j) :
    (serveHTTP h r upstream inSched outSched uuid8 now).status = 200 ∧
    (serveHTTP h r upstream inSched outSched uuid8 now).contentType =
      some "application/json" ∧
    j = BuildResponse r.path uuid8 now := by
  revert hj
  unfold serveHTTP
  rcases h.routes.lookup r.path with _ | providerName
  · intro hj; simp at hj
  · dsimp only
    rcases h.providers.lookup providerName with _ | provider
    · intro hj; simp at hj
    · dsimp only
      by_cases hm : isMethodAllowed r.path r.method provider = true
      · rw [if_pos hm]
        rcases readRequestBody r with e | requestBody
        · intro hj; simp at hj
        · exact inputGuardPhase_refusal_inv h r upstream requestBody inSched
            outSched uuid8 now j
      · rw [if_neg hm]
        intro hj; simp at hj

/-! ## Theorems for the claims -/

/-- C2 counterexample: a request body of length exactly the cap does not
come back unchanged — `captureBody` appends the truncation marker because
`buf.Len() >= maxSize` already holds at exactly the cap. -/
theorem captureBody_at_cap_appends_marker :
    captureBody "abcd".toList 4 ≠ "abcd".toList := by decide

/-- C2 (amended): if the input is strictly below the cap the captured body
equals the input (no marker); at or above the cap the captured body is the
first `cap` bytes followed by the truncation marker, hence it ends with the
marker and its length is at most `cap` plus the marker's length. -/
theorem captureBody_truncation (body : List Char) (cap : Nat) :
    (body.length < cap → captureBody body cap = body) ∧
    (cap ≤ body.length →
      captureBody body cap = body.take cap ++ truncationMarker ∧
      truncationMarker <:+ captureBody body cap ∧
      (captureBody body cap).length ≤ cap + truncationMarker.length) := by
  constructor
  · intro h
    unfold captureBody
    rw [List.take_of_length_le h.le, if_neg (not_le.mpr h)]
  · intro h
    have htake : (body.take cap).length = cap := by
      rw [List.length_take]; omega
    have hcap : captureBody body cap = body.take cap ++ truncationMarker := by
      unfold captureBody
      rw [if_pos (le_of_eq htake.symm)]
    refine ⟨hcap, ?_, ?_⟩
    · rw [hcap]; exact List.suffix_append _ _
    · rw [hcap, List.length_append, htake]

/-- C2 witness: the amended theorem at two concrete inputs — a body below
the cap is returned unchanged, a body above the cap is truncated to the cap
and marked. -/
theorem captureBody_truncation_witness :
    captureBody "abc".toList 4 = "abc".toList ∧
    captureBody "abcdef".toList 4 = "abcd".toList ++ truncationMarker := by
  exact ⟨(captureBody_truncation "abc".toList 4).1 (by decide),
    ((captureBody_truncation "abcdef".toList 4).2 (by decide)).1⟩

/-- C1: at the failing input — a POST body of five bytes under a cap of
four — the body handed back to the downstream handler (and hence forwarded
upstream) is the truncated logged copy with the marker appended, not the
original body. -/
theorem capture_forwards_truncated_body :
    (captureRequestBody "POST" (some "abcde".toList) 4).2 =
      some ("abcd".toList ++ truncationMarker) ∧
    ¬ (captureRequestBody "POST" (some "abcde".toList) 4).2 =
      some "abcde".toList := by
  constructor <;> decide

/-- C8: `SanitizeForLog` binds `lowerKey := key` without lower-casing, so a
capitalized `Authorization` header is not matched against the lower-case
sensitive-name set and its secret value survives sanitization. -/
theorem sanitizeForLog_misses_capitalized_key :
    sanitizeForLog [("Authorization", HeaderVal.str "Bearer sk-secret")] =
      [("Authorization", HeaderVal.str "Bearer sk-secret")] ∧
    captureHeaders [("Authorization", ["Bearer sk-secret"])] =
      [("Authorization", HeaderVal.str "[REDACTED]")] := by
  exact ⟨rfl, by decide⟩

/-- C9: the moderation guardrail fails open: its `Check` never returns a
non-nil error, an extraction failure yields `passed = true` with the error
in metadata, and an API failure on a non-empty user message yields
`passed = true` with the error in metadata. -/
theorem moderation_fails_open (m : ModerationGuardrail)
    (extract : Except String String) (api : Except String ModResult) :
    (moderationCheck m extract api).2 = none ∧
    (∀ e, extract = .error e →
      (moderationCheck m extract api).1.passed = true ∧
      ("error", e) ∈ (moderationCheck m extract api).1.metadata) ∧
    (∀ msg e, extract = .ok msg → msg ≠ "" → api = .error e →
      (moderationCheck m extract api).1.passed = true ∧
      ("error", e) ∈ (moderationCheck m extract api).1.metadata) := by
  refine ⟨?_, ?_, ?_⟩
  · rcases extract with e | msg
    · rfl
    · by_cases hmsg : msg = "" <;> rcases api with e | mr <;>
        simp [moderationCheck, hmsg]
  · rintro e rfl
    simp [moderationCheck]
  · rintro msg e rfl hmsg rfl
    simp [moderationCheck, hmsg]

/-- C9 witness: the fail-open theorem applied at a concrete unparseable
input and a concrete API outage. -/
theorem moderation_fails_open_witness :
    ((moderationCheck ⟨"mod", 0, true, []⟩ (.error "bad json") (.error "down")).1.passed = true ∧
      ("error", "bad json") ∈
        (moderationCheck ⟨"mod", 0, true, []⟩ (.error "bad json") (.error "down")).1.metadata) ∧
    ((moderationCheck ⟨"mod", 0, true, []⟩ (.ok "hi") (.error "down")).1.passed = true ∧
      ("error", "down") ∈
        (moderationCheck ⟨"mod", 0, true, []⟩ (.ok "hi") (.error "down")).1.metadata) := by
  exact ⟨(moderation_fails_open ⟨"mod", 0, true, []⟩ (.error "bad json") (.error "down")).2.1
      "bad json" rfl,
    (moderation_fails_open ⟨"mod", 0, true, []⟩ (.ok "hi") (.error "down")).2.2
      "hi" "down" rfl (by decide) rfl⟩

/-- The chat-completion refusal document: object tag and assistant content. -/
theorem chatShape (u : String) (n : Int) :
    (buildChatCompletionResponse u n).getField "object" =
      some (.str "chat.completion") ∧
    ((((buildChatCompletionResponse u n).getField "choices").bind
        (·.atIndex 0)).bind (·.getField "message")).bind (·.getField "content") =
      some (.str blockedMessage) := ⟨rfl, rfl⟩

/-- The legacy text-completion refusal document: object tag and text. -/
theorem legacyShape (u : String) (n : Int) :
    (buildLegacyCompletionResponse u n).getField "object" =
      some (.str "text_completion") ∧
    (((buildLegacyCompletionResponse u n).getField "choices").bind
        (·.atIndex 0)).bind (·.getField "text") = some (.str blockedMessage) :=
  ⟨rfl, rfl⟩

/-- `BuildResponse` dispatch: the legacy shape exactly for
`/v1/completions`, the chat shape for every other path. -/
theorem BuildResponse_dispatch (path u : String) (n : Int) :
    (path = "/v1/completions" →
      BuildResponse path u n = buildLegacyCompletionResponse u n) ∧
    (path ≠ "/v1/completions" →
      BuildResponse path u n = buildChatCompletionResponse u n) := by
  constructor
  · rintro rfl; rfl
  · intro hne
    unfold BuildResponse
    by_cases h1 : path = "/v1/chat/completions"
    · rw [if_pos h1]
    · rw [if_neg h1, if_neg hne]
      by_cases h3 : path = "/v1/responses"
      · rw [if_pos h3]
      · rw [if_neg h3]

/-- C3 counterexample: the chat endpoint advertises only POST, yet a GET
request passes the proxy's method check and is forwarded upstream, coming
back with the upstream's 200 instead of being rejected with 405. -/
theorem unadvertised_method_forwarded :
    chatProvider.endpoints.map (·.methods) = [["POST"]] ∧
    isMethodAllowed "/v1/chat/completions" "GET" chatProvider = true ∧
    (serveHTTP (chatHandler none) ⟨"/v1/chat/completions", "GET", none⟩
        (some okUpstream) noCancel noCancel "u" 0).status = 200 ∧
    (serveHTTP (chatHandler none) ⟨"/v1/chat/completions", "GET", none⟩
        (some okUpstream) noCancel noCancel "u" 0).contactedUpstream = true := by
  refine ⟨rfl, by decide, by decide, by decide⟩

/-- C3 (amended): the proxy's method check compares the upper-cased method
against the fixed list GET/POST/PUT/DELETE/PATCH only — it is invariant in
the provider, so the provider's advertised per-endpoint methods are never
consulted — and a routed request with an available provider is answered
405 without contacting upstream when the method falls outside that fixed
list. -/
theorem method_check_ignores_advertised (path method : String) (p q : ProviderM)
    (h : ProxyHandler) (r : RequestM) (upstream : Option UpstreamResponse)
    (inSched outSched : Int → Nat → Option String) (uuid8 : String) (now : Int) :
    isMethodAllowed path method p = isMethodAllowed path method q ∧
    isMethodAllowed path method p =
      ["GET", "POST", "PUT", "DELETE", "PATCH"].contains (strToUpper method) ∧
    (∀ providerName provider,
      h.routes.lookup r.path = some providerName →
      h.providers.lookup providerName = some provider →
      isMethodAllowed r.path r.method provider = false →
      (serveHTTP h r upstream inSched outSched uuid8 now).status = 405 ∧
      (serveHTTP h r upstream inSched outSched uuid8 now).contactedUpstream =
        false) := by
  refine ⟨rfl, rfl, ?_⟩
  intro providerName provider hroute hprov hma
  unfold serveHTTP
  rw [hroute]
  dsimp only
  rw [hprov]
  dsimp only
  rw [if_neg (by simp [hma])]
  exact ⟨rfl, rfl⟩

/-- C6: every blocked request — one answered with a builder refusal
document — gets HTTP 200 with Content-Type application/json, and the
document is the endpoint's native shape carrying the fixed refusal string:
the legacy text-completion shape for /v1/completions, the chat-completion
shape for /v1/chat/completions, /v1/responses and every other path. -/
theorem blocked_response_is_200_json_refusal (h : ProxyHandler) (r : RequestM)
    (upstream : Option UpstreamResponse)
    (inSched outSched : Int → Nat → Option String) (uuid8 : String) (now : Int)
    (j : JsonVal)
    (hj : (serveHTTP h r upstream inSched outSched uuid8 now).body = .refusal j) :
    (serveHTTP h r upstream inSched outSched uuid8 now).status = 200 ∧
    (serveHTTP h r upstream inSched outSched uuid8 now).contentType =
      some "application/json" ∧
    j = BuildResponse r.path uuid8 now ∧
    (r.path = "/v1/completions" →
      j.getField "object" = some (.str "text_completion") ∧
      ((j.getField "choices").bind (·.atIndex 0)).bind (·.getField "text") =
        some (.str blockedMessage)) ∧
    (r.path ≠ "/v1/completions" →
      j.getField "object" = some (.str "chat.completion") ∧
      (((j.getField "choices").bind (·.atIndex 0)).bind
          (·.getField "message")).bind (·.getField "content") =
        some (.str blockedMessage)) := by
  obtain ⟨hs, hc, hb⟩ :=
    serveHTTP_refusal_inv h r upstream inSched outSched uuid8 now j hj
  refine ⟨hs, hc, hb, ?_, ?_⟩
  · intro hp
    rw [hb, (BuildResponse_dispatch r.path uuid8 now).1 hp]
    exact legacyShape uuid8 now
  · intro hp
    rw [hb, (BuildResponse_dispatch r.path uuid8 now).2 hp]
    exact chatShape uuid8 now

/-- An executor fixture whose single input guardrail blocks everything. -/
def blockEx : Executor := ⟨[failGuardrail "blocker" 0 "bad"], []⟩

/-- C6 witness: the blocked-response theorem applied at a concrete input
block on the chat endpoint. -/
theorem blocked_response_witness :
    (serveHTTP (chatHandler (some blockEx))
        ⟨"/v1/chat/completions", "POST", some (.ok "hi")⟩
        (some okUpstream) noCancel noCancel "u" 7).status = 200 :=
  (blocked_response_is_200_json_refusal (chatHandler (some blockEx))
    ⟨"/v1/chat/completions", "POST", some (.ok "hi")⟩
    (some okUpstream) noCancel noCancel "u" 7
    (BuildResponse "/v1/chat/completions" "u" 7) rfl).1

/-- C7: under the schedule in which every spawned task runs its check, the
executor enumerates the priority groups in strictly ascending priority
value; every check invoked at a priority receives that group's entry of
the content trace (each group's input is the previous passing group's
first `modified_content`, else unchanged); and when the run fails, a
guardrail of the failing group is named together with its check's reason,
and no invocation, metric or stored result comes from any later
(higher-priority-value) group. -/
theorem executor_priority_groups (gs : List Guardrail) (c0 layer : String)
    (o1 o2 : Option String) :
    (sortedPriorities gs).Sorted (· < ·) ∧
    (∀ inv ∈ (executeParallel gs c0 layer o1 o2 noCancel).invocations,
      ∃ pc ∈ (sortedPriorities gs).zip
        (contentTrace gs layer o1 o2 noCancel (sortedPriorities gs) c0),
        inv.priority = pc.1 ∧ inv.content = pc.2) ∧
    ((executeParallel gs c0 layer o1 o2 noCancel).result.passed = false →
      ∃ p c',
        (p, c') ∈ (sortedPriorities gs).zip
          (contentTrace gs layer o1 o2 noCancel (sortedPriorities gs) c0) ∧
        (∃ g ∈ priorityGroup gs p,
          (executeParallel gs c0 layer o1 o2 noCancel).result.failedGuardrail =
            g.name ∧
          checkFails g c'
            (executeParallel gs c0 layer o1 o2 noCancel).result.failureReason) ∧
        (∀ inv ∈ (executeParallel gs c0 layer o1 o2 noCancel).invocations,
          inv.priority ≤ p) ∧
        (∀ m ∈ (executeParallel gs c0 layer o1 o2 noCancel).metrics,
          m.priority ≤ p) ∧
        (∀ res ∈ (executeParallel gs c0 layer o1 o2 noCancel).result.results,
          ∀ r, res = some r →
            (∃ g ∈ gs, r.name = g.name ∧ r.priority = g.priority) ∧
            r.priority ≤ p)) := by
  refine ⟨sortedPriorities_sorted gs, ?_⟩
  cases hE : gs.isEmpty with
  | true =>
    constructor
    · intro inv hinv
      unfold executeParallel at hinv
      rw [if_pos hE] at hinv
      cases hinv
    · intro hfail
      unfold executeParallel at hfail
      rw [if_pos hE] at hfail
      cases hfail
  | false =>
    have hproj : executeParallel gs c0 layer o1 o2 noCancel =
        ⟨(execGroups gs layer o1 o2 noCancel (sortedPriorities gs) c0 []).1,
          (execGroups gs layer o1 o2 noCancel (sortedPriorities gs) c0 []).2.1,
          (execGroups gs layer o1 o2 noCancel (sortedPriorities gs) c0 []).2.2,
          none⟩ := by
      unfold executeParallel
      rw [if_neg (by simp [hE])]
    obtain ⟨hA, hB⟩ := execGroups_noCancel_spec gs layer o1 o2
      (sortedPriorities gs) c0 [] (sortedPriorities_sorted gs)
      (by intro res hres; cases hres)
    constructor
    · intro inv hinv
      rw [hproj] at hinv
      exact hA inv hinv
    · intro hfail
      rw [hproj] at hfail
      obtain ⟨p, c', hzip, hname, hinvB, hmetB, hresB⟩ := hB hfail
      refine ⟨p, c', hzip, ?_, ?_, ?_, ?_⟩
      · rw [hproj]
        exact hname
      · intro inv hinv
        rw [hproj] at hinv
        exact hinvB inv hinv
      · intro m hm
        rw [hproj] at hm
        exact hmetB m hm
      · intro res hres r hr
        rw [hproj] at hres
        exact hresB res hres r hr

/-- C4 counterexample: two guardrails are spawned in one group; the first
fails its check, the sibling observes cancellation at its initial select —
only one metric is submitted for the two spawned tasks, and it belongs to
the task that ran; the cancelled task records no metric at all. -/
theorem cancelled_task_submits_no_metric :
    (executeGroupParallel
        [failGuardrail "g1" 0 "bad", passGuardrail "g2" 0] "c" "input" none none
        (fun i => if i = 0 then none else some "context canceled")).metrics.map
      (·.guardrailName) = ["g1"] ∧
    [failGuardrail "g1" 0 "bad", passGuardrail "g2" 0].length = 2 := by
  constructor <;> rfl

/-- C4 (amended): a spawned task submits exactly one metric when it gets to
invoke its check — whether the check passes, fails or errs — and no metric
when sibling cancellation (or the deadline) interrupts it at its initial
select, before the check starts; hence the group's metric count equals the
number of tasks not cancelled before their check. -/
theorem executeGroup_metric_count (gs : List Guardrail) (content layer : String)
    (o1 o2 : Option String) (sched : Nat → Option String) :
    (executeGroupParallel gs content layer o1 o2 sched).metrics.length =
      (gs.enum.filter fun p => (sched p.1).isNone).length ∧
    (∀ g c, (runTask g content layer o1 o2 c).metric.isSome = c.isNone) := by
  constructor
  · rw [executeGroupParallel_metrics]
    by_cases hempty : gs.isEmpty
    · rw [if_pos hempty, List.isEmpty_iff.mp hempty]
      rfl
    · rw [if_neg hempty]
      exact metric_count_aux content layer o1 o2 sched gs.enum
  · intro g c
    exact runTask_metric_isSome g content layer o1 o2 c

/-- C5 counterexample: the deadline expires before the single input
guardrail reaches its check, so no decision was made; the executor still
returns a nil error together with a non-passing result carrying the
generic reason, and the proxy answers 200 with a refusal body — not 500
with an error envelope. -/
theorem deadline_without_decision_gets_refusal :
    ((Executor.mk [passGuardrail "g" 0] []).ExecuteInput "hello" deadlineSched).err =
      none ∧
    ((Executor.mk [passGuardrail "g" 0] []).ExecuteInput "hello"
      deadlineSched).result.passed = false ∧
    ((Executor.mk [passGuardrail "g" 0] []).ExecuteInput "hello"
      deadlineSched).result.failureReason =
      "Guardrail execution failed: context deadline exceeded" ∧
    (serveHTTP (chatHandler (some (Executor.mk [passGuardrail "g" 0] [])))
        ⟨"/v1/chat/completions", "POST", some (.ok "hello")⟩
        (some okUpstream) deadlineSched noCancel "u" 0).status = 200 ∧
    (serveHTTP (chatHandler (some (Executor.mk [passGuardrail "g" 0] [])))
        ⟨"/v1/chat/completions", "POST", some (.ok "hello")⟩
        (some okUpstream) deadlineSched noCancel "u" 0).body.isErrorEnvelope =
      false := by
  refine ⟨rfl, by decide, by decide, by decide, by decide⟩

/-- C5 (amended): the executor reports internal faults through the result,
not through the error: `executeParallel` (hence `ExecuteInput` and
`ExecuteOutput`) returns a nil Go error at every return site, so the
proxy's 500 structured-envelope branches are dead code and no `serveHTTP`
outcome ever carries an error envelope. -/
theorem executor_error_never_surfaces :
    (∀ gs content layer o1 o2 sched,
      (executeParallel gs content layer o1 o2 sched).err = none) ∧
    (∀ h r upstream inSched outSched uuid8 now,
      (serveHTTP h r upstream inSched outSched uuid8 now).body.isErrorEnvelope =
        false) := by
  refine ⟨fun gs content layer o1 o2 sched =>
    executeParallel_err_none gs content layer o1 o2 sched, ?_⟩
  intro h r upstream inSched outSched uuid8 now
  unfold serveHTTP
  rcases h.routes.lookup r.path with _ | providerName
  · rfl
  · dsimp only
    rcases h.providers.lookup providerName with _ | provider
    · rfl
    · dsimp only
      split
      · rcases readRequestBody r with e | requestBody
        · rfl
        · exact inputGuardPhase_no_envelope h r upstream requestBody inSched
            outSched uuid8 now
      · rfl

/-- C10: at the failing input — a batch of one log whose `ResponseBody` is
`nil` — the batch loop's debug print dereferences the nil pointer and the
call panics instead of inserting or returning an error, even though the
database oracles all succeed. -/
theorem saveRequestLogsBatch_nil_responseBody_panics :
    saveRequestLogsBatch [{ responseBody := none }] (.ok ()) (.ok ()) (.ok ()) =
      BatchOutcome.panicked "invalid memory address or nil pointer dereference" ∧
    saveRequestLogsBatch [{ responseBody := some "ok" }] (.ok ()) (.ok ()) (.ok ()) =
      BatchOutcome.ok := by
  constructor <;> rfl

end FlashGateway
